import Mathlib

/-!
Verification development for the BullfolioScreener backend (src/backend.py).

The backend exposes two endpoints:
* `/api/watchlist` (`get_watchlist`, backend.py lines 62-103): loads a cached
  watchlist table, slices it by a 1-based inclusive rank range, and optionally
  sorts the selected page by a field key.
* `/api/stock_data` (`get_stock_data`, backend.py lines 106-156): serves candle
  series from an in-memory TTL cache, fetching from the price-history source
  (yfinance) on miss or expiry.

The shallow embedding below models rows as association lists of field name to
value, where a value is either an opaque string or a number (Python floats read
from the CSV are modelled as rationals).  External effects (the CSV file read
and the yfinance download) are passed in as oracle parameters; wall-clock time
is an explicit parameter.  Python's stable `list.sort` is modelled with
`List.mergeSort`; a sort that would raise in Python (a row missing the key, or
values of mixed type being compared) is modelled as the 500 internal-error
outcome produced by the blanket `except` handler.
-/

namespace Bullfolio

/-- A field value of a watchlist row: either an opaque string or a numeric
value (the four return columns are converted with `float(...)` at load time,
backend.py lines 50-53; floats are modelled as rationals). -/
inductive Value where
  | str (s : String)
  | num (q : Rat)
deriving DecidableEq

/-- Whether a value is numeric; Python raises `TypeError` when comparing a
`str` with a `float`, so comparisons only succeed between values of one kind. -/
def Value.isNum : Value → Bool
  | .str _ => false
  | .num _ => true

/-- Comparison used by the model of Python's `sort`.  On two strings and on two
numbers it is the natural order.  The mixed cases are unreachable under the
`sortable` guard below (Python raises there); they are fixed arbitrarily so
that `leB` is total and transitive, as the `mergeSort` lemmas require. -/
def Value.leB : Value → Value → Bool
  | .str a, .str b => decide (a ≤ b)
  | .num a, .num b => decide (a ≤ b)
  | .str _, .num _ => true
  | .num _, .str _ => false

/-- A watchlist row: a Python dict from field names to values, modelled as an
association list looked up with `List.lookup`. -/
abbrev Row := List (String × Value)

/-- Result of the watchlist endpoint, tagged with the HTTP class the API layer
attaches: 200 with rows, 404, 400, or 500 from the blanket handler. -/
inductive WResult where
  | ok (rows : List Row)
  | notFound (msg : String)
  | badRequest (msg : String)
  | internalError
deriving DecidableEq

/-- The value of row `r` at key `k`, defaulting (unreachably under the
`sortable` guard) when the key is absent. -/
def valAt (k : String) (r : Row) : Value :=
  (List.lookup k r).getD (Value.str "")

/-- Comparator on rows used for the ascending sort: compare the values at the
sort key, mirroring `key=lambda x: x[sort_by]` (backend.py lines 95-97). -/
def rowLe (k : String) (a b : Row) : Bool :=
  Value.leB (valAt k a) (valAt k b)

/-- `sortable k page` holds exactly when Python's
`page.sort(key=lambda x: x[k])` would succeed: every row has the key and all
values at the key are of one kind.  Otherwise Python raises (`KeyError` or
`TypeError`) and the blanket handler returns the 500 outcome. -/
def sortable (k : String) (page : List Row) : Bool :=
  match page with
  | [] => true
  | r :: rs =>
    match List.lookup k r with
    | none => false
    | some v => rs.all fun r2 =>
        match List.lookup k r2 with
        | some w => Value.isNum w == Value.isNum v
        | none => false

/-- The model of `filtered_data.sort(key=lambda x: x[sort_by], reverse=desc)`
(backend.py lines 94-97): Python's Timsort is stable, and `reverse=True`
flips the comparator while preserving stability, which is exactly
`mergeSort` with the flipped comparator. -/
def sortRows (desc : Bool) (k : String) (page : List Row) : List Row :=
  if desc then page.mergeSort fun a b => rowLe k b a
  else page.mergeSort fun a b => rowLe k a b

/-- `filtered_data[start_rank - 1:end_rank]` (backend.py line 86): a Python
slice with non-negative bounds drops `start_rank - 1` elements and keeps
`end_rank - (start_rank - 1)` of the rest, clipping at the list's length. -/
def selectPage (table : List Row) (start_rank end_rank : Int) : List Row :=
  (table.drop (start_rank - 1).toNat).take (end_rank - (start_rank - 1)).toNat

/-- The body of `get_watchlist` after the watchlist is loaded and the rank
parameters are parsed (backend.py lines 77-99): validate the rank range,
slice, and optionally sort (an empty-string `sortBy` is falsy in Python and
is skipped like an absent one). -/
def watchlist_query (table : List Row) (sortOrder sortBy2 : Option String)
    (start_rank end_rank : Int) : WResult :=
  if start_rank < 1 ∨ end_rank < start_rank then
    .badRequest "Invalid rank range."
  else
    match sortBy2 with
    | none => .ok (selectPage table start_rank end_rank)
    | some k =>
      if k = "" then .ok (selectPage table start_rank end_rank)
      else if (selectPage table start_rank end_rank).isEmpty
           || !(List.lookup k ((selectPage table start_rank end_rank).headD [])).isSome then
        .badRequest ("Invalid sort key: " ++ k ++ ".")
      else if sortable k (selectPage table start_rank end_rank) then
        .ok (sortRows ((sortOrder.getD "asc") = "desc") k
          (selectPage table start_rank end_rank))
      else .internalError

/-- Model of Python's `int(s)` digit body after the optional sign: the first
character must be a digit, and later characters are digits, with a single
underscore allowed only between two digits. -/
def pyDigitsCore : List Char → Nat → Option Nat
  | [], acc => some acc
  | '_' :: c :: rest, acc =>
    if c.isDigit then pyDigitsCore rest (acc * 10 + (c.toNat - 48)) else none
  | c :: rest, acc =>
    if c.isDigit then pyDigitsCore rest (acc * 10 + (c.toNat - 48)) else none

/-- Digits of a Python integer literal body: non-empty, starting with a digit. -/
def pyDigits : List Char → Option Nat
  | [] => none
  | c :: rest =>
    if c.isDigit then pyDigitsCore rest (c.toNat - 48) else none

/-- Surrounding whitespace is ignored by Python's `int(s)`. -/
def pyStrip (s : String) : List Char :=
  ((s.toList.dropWhile Char.isWhitespace).reverse.dropWhile Char.isWhitespace).reverse

/-- Model of Python's `int(s)` on strings (`int(request.args.get(...))`,
backend.py lines 74-75): strip whitespace, optional sign, ASCII digits with
underscore separators; `none` models the `ValueError` the blanket handler
turns into the 500 outcome. -/
def pyParseInt (s : String) : Option Int :=
  match pyStrip s with
  | '+' :: rest => (pyDigits rest).map Int.ofNat
  | '-' :: rest => (pyDigits rest).map fun n => -(n : Int)
  | cs => (pyDigits cs).map Int.ofNat

/-- The `/api/watchlist` handler (backend.py lines 62-103) given the outcome
of `load_watchlist_data` (`none` models both an unknown watchlist name and a
failed load, which the handler maps to 404 at line 68) and the raw query
parameters.  An absent rank parameter defaults to the integers 1 and 50
without parsing; a present one goes through `int(...)`, whose failure is
caught by the blanket handler as the 500 outcome. -/
def get_watchlist (watchlist_data : Option (List Row))
    (sortOrder sortBy2 : Option String) (startRaw endRaw : Option String) : WResult :=
  match watchlist_data with
  | none => .notFound "Watchlist not found or could not be processed."
  | some table =>
    match (match startRaw with | none => some (1 : Int) | some s => pyParseInt s),
          (match endRaw with | none => some (50 : Int) | some s => pyParseInt s) with
    | some s, some e => watchlist_query table sortOrder sortBy2 s e
    | _, _ => .internalError

/-- One candle row of the frame returned by the price-history source, already
carrying the formatted date string and the four OHLC floats (modelled as
rationals); `get_stock_data` turns it into the response shape at
backend.py lines 133-143. -/
structure Candle where
  date : String
  o : Rat
  h : Rat
  l : Rat
  c : Rat
deriving DecidableEq

/-- One element of the JSON response: `{x: "YYYY-MM-DD", y: [o, h, l, c]}`. -/
structure CandlePoint where
  x : String
  y : List Rat
deriving DecidableEq

/-- The transformation of one source row (backend.py lines 134-143). -/
def toCandlePoint (r : Candle) : CandlePoint :=
  ⟨r.date, [r.o, r.h, r.l, r.c]⟩

/-- Outcome of one `yf.download` call: a frame of candles (possibly empty), or
an exception (network or parse failure). -/
inductive Fetch where
  | ok (rows : List Candle)
  | fail
deriving DecidableEq

/-- An entry of `_stock_data_cache`: the transformed series plus the
`time.time()` timestamp stored with it (backend.py lines 146-149). -/
structure CacheEntry where
  data : List CandlePoint
  timestamp : Rat
deriving DecidableEq

/-- `_stock_data_cache`, a Python dict keyed by the composite string key,
modelled as an association list with unique keys maintained by `setKey`. -/
abbrev StockCache := List (String × CacheEntry)

/-- `CACHE_DURATION_SECONDS = 30 * 60` (backend.py line 19). -/
def CACHE_DURATION_SECONDS : Rat := 30 * 60

/-- Python dict assignment `d[k] = v`: overwrite the entry at `k` when it
exists, otherwise add it. -/
def setKey {β : Type} (st : List (String × β)) (k : String) (v : β) : List (String × β) :=
  match st with
  | [] => [(k, v)]
  | (k2, v2) :: rest => if k2 = k then (k, v) :: rest else (k2, v2) :: setKey rest k v

/-- Result of the `/api/stock_data` handler. -/
inductive StockResult where
  | ok (data : List CandlePoint)
  | validationError (msg : String)
  | notFound (msg : String)
  | internalError
deriving DecidableEq

/-- The 404 message of backend.py line 131. -/
def noDataMsg (t : String) : String :=
  "No data found for the ticker: " ++ t ++ ". Please check the symbol."

/-- Full outcome of one `/api/stock_data` call: the HTTP-level result, the
cache state after the call, and whether the price-history source was
invoked (`yf.download` at backend.py line 127). -/
structure StockOutcome where
  res : StockResult
  cache : StockCache
  invoked : Bool
deriving DecidableEq

/-- The fetch-and-store tail of `get_stock_data` (backend.py lines 126-156),
reached on a cache miss or a stale entry: a failing source is caught by the
blanket handler (500, nothing cached); an empty frame yields the 404 outcome
(nothing cached); a non-empty frame is transformed, cached under `key` with
the current time, and returned. -/
def fetchAndStore (source : Fetch) (now : Rat) (st : StockCache)
    (key t : String) : StockOutcome :=
  match source with
  | .fail => ⟨.internalError, st, true⟩
  | .ok rows =>
    if rows.isEmpty then ⟨.notFound (noDataMsg t), st, true⟩
    else
      let cd := rows.map toCandlePoint
      ⟨.ok cd, setKey st key ⟨cd, now⟩, true⟩

/-- Model of Python's `str.upper()` (`ticker.upper()`, backend.py line 109),
mapped over the characters; ASCII case conversion. -/
def pyUpper (s : String) : String :=
  String.mk (s.data.map Char.toUpper)

/-- The composite cache key of backend.py line 117. -/
def stockKey (ticker period interval : String) : String :=
  pyUpper ticker ++ "_" ++ period ++ "_" ++ interval

/-- The `/api/stock_data` handler `get_stock_data` (backend.py lines 106-156)
for a given source outcome, current time and cache state.  The ticker is
uppercased (line 109) and rejected if empty (line 113, note: no trimming);
the cache key is `ticker_period_interval` (line 117); a fresh entry
(age strictly below `CACHE_DURATION_SECONDS`, lines 120-121) is served from
the cache without touching the source. -/
def get_stock_data (source : Fetch) (now : Rat) (st : StockCache)
    (ticker period interval : String) : StockOutcome :=
  if pyUpper ticker = "" then
    ⟨.validationError "Stock ticker cannot be empty.", st, false⟩
  else
    match List.lookup (stockKey ticker period interval) st with
    | some e =>
      if now - e.timestamp < CACHE_DURATION_SECONDS then ⟨.ok e.data, st, false⟩
      else fetchAndStore source now st (stockKey ticker period interval) (pyUpper ticker)
    | none => fetchAndStore source now st (stockKey ticker period interval) (pyUpper ticker)

/-- `_watchlist_cache`, a Python dict from watchlist name to loaded table. -/
abbrev WatchCache := List (String × List Row)

/-- Outcome of one `load_watchlist_data` call: the returned table (or `None`),
the cache state after the call, and whether the underlying CSV source was
read. -/
structure LoadOutcome where
  res : Option (List Row)
  cache : WatchCache
  readSource : Bool
deriving DecidableEq

/-- The fixed name-to-filename lookup of backend.py lines 30-35. -/
def filenames (n : String) : Option String :=
  if n = "india" then some "india.csv"
  else if n = "usa" then some "usa.csv"
  else none

/-- `load_watchlist_data` (backend.py lines 21-59).  `readCsv` is the oracle
for the external file read and parse block (lines 39-54): it returns the
parsed rows, or `none` when the file is missing or unreadable — both of
which the function maps to `None`.  A cached name is answered from
`_watchlist_cache` without reading the source. -/
def load_watchlist_data (readCsv : String → Option (List Row))
    (st : WatchCache) (name : String) : LoadOutcome :=
  match List.lookup name st with
  | some tbl => ⟨some tbl, st, false⟩
  | none =>
    match filenames name with
    | none => ⟨none, st, false⟩
    | some fn =>
      match readCsv fn with
      | none => ⟨none, st, false⟩
      | some data => ⟨some data, setKey st name data, true⟩

/-- A later sequence of loader calls, each with its own source oracle (the
file on disk may change between calls) and name; returns the final cache. -/
def runLoads (st : WatchCache)
    (calls : List ((String → Option (List Row)) × String)) : WatchCache :=
  match calls with
  | [] => st
  | (rc, nm) :: rest => runLoads (load_watchlist_data rc st nm).cache rest

/-! ## Theorems about the query engine (`/api/watchlist`) -/

/-- C7: For every query where startRank < 1 or endRank < startRank, the result
is the ValidationError "Invalid rank range." (backend.py lines 77-78), and no
slicing or sorting is performed: the outcome is that single error, never a
(partial) row sequence. -/
theorem watchlist_invalid_rank_range (table : List Row) (ord sb : Option String)
    (s e : Int) (h : s < 1 ∨ e < s) :
    watchlist_query table ord sb s e = WResult.badRequest "Invalid rank range." := by
  unfold watchlist_query
  rw [if_pos h]

/-- Witness for C7 at a concrete invalid range. -/
theorem watchlist_invalid_rank_range_witness :
    ((0 : Int) < 1 ∨ (2 : Int) < 0) ∧
    watchlist_query [] none none 0 2 = WResult.badRequest "Invalid rank range." :=
  ⟨Or.inl (by decide),
   watchlist_invalid_rank_range [] none none 0 2 (Or.inl (by decide))⟩

/-- C4: For every table and valid rank range without sortBy, the result is
exactly the rows at 0-based positions startRank-1 up to (excluding)
min(endRank, tableLength) in original order; its length is
max(0, min(endRank, tableLength) - startRank + 1), and an upper end beyond
the table length is clipped rather than an error (backend.py lines 81-86). -/
theorem watchlist_slice_exact (table : List Row) (ord : Option String)
    (s e : Int) (hs : 1 ≤ s) (he : s ≤ e) :
    ∃ l, watchlist_query table ord none s e = WResult.ok l ∧
      (l.length : Int) = max 0 (min e (table.length : Int) - s + 1) ∧
      ∀ j : Nat, j < l.length → l[j]? = table[(s - 1).toNat + j]? := by
  refine ⟨selectPage table s e, ?_, ?_, ?_⟩
  · unfold watchlist_query
    rw [if_neg (by omega)]
  · unfold selectPage
    rw [List.length_take, List.length_drop]
    omega
  · intro j hj
    unfold selectPage at hj ⊢
    rw [List.length_take, List.length_drop] at hj
    rw [List.getElem?_take, if_pos (by omega), List.getElem?_drop]

/-- Witness for C4: a 3-row table, ranks 2..50 (clipped to the 2 rows left). -/
theorem watchlist_slice_exact_witness :
    (1 : Int) ≤ 2 ∧ (2 : Int) ≤ 50 ∧
    ∃ l, watchlist_query [[("Symbol", Value.str "A")], [("Symbol", Value.str "B")],
          [("Symbol", Value.str "C")]] none none 2 50 = WResult.ok l ∧
      (l.length : Int) =
        max 0 (min 50 (([[("Symbol", Value.str "A")], [("Symbol", Value.str "B")],
          [("Symbol", Value.str "C")]] : List Row).length : Int) - 2 + 1) ∧
      ∀ j : Nat, j < l.length →
        l[j]? = ([[("Symbol", Value.str "A")], [("Symbol", Value.str "B")],
          [("Symbol", Value.str "C")]] : List Row)[((2 : Int) - 1).toNat + j]? :=
  ⟨by decide, by decide,
   watchlist_slice_exact [[("Symbol", Value.str "A")], [("Symbol", Value.str "B")],
     [("Symbol", Value.str "C")]] none 2 50 (by decide) (by decide)⟩

/-- C3 counterexample: with a one-row table, valid range 2..2 (an empty
selection) and sortBy "Symbol", the code answers the 400 "Invalid sort key"
outcome (backend.py line 91-92 tests `not filtered_data` first), not the
empty sequence the claim requires for an empty selection. -/
theorem sortkey_empty_selection_cex :
    watchlist_query [[("Symbol", Value.str "A")]] none (some "Symbol") 2 2 =
      WResult.badRequest "Invalid sort key: Symbol." ∧
    watchlist_query [[("Symbol", Value.str "A")]] none (some "Symbol") 2 2 ≠
      WResult.ok [] := by
  constructor
  · decide
  · decide

/-- C3 (amended): for every query with a valid rank range and a non-empty
sortBy key, if the selection is empty, or the key is missing from the first
selected row, the result is the ValidationError "Invalid sort key"
(backend.py lines 89-92); in particular an empty selection with sortBy is an
error, not an empty result. -/
theorem sortkey_invalid_or_empty (table : List Row) (ord : Option String)
    (k : String) (s e : Int) (hs : 1 ≤ s) (he : s ≤ e) (hk : k ≠ "")
    (h : selectPage table s e = [] ∨
         List.lookup k ((selectPage table s e).headD []) = none) :
    watchlist_query table ord (some k) s e =
      WResult.badRequest ("Invalid sort key: " ++ k ++ ".") := by
  have hcond : ((selectPage table s e).isEmpty
      || !(List.lookup k ((selectPage table s e).headD [])).isSome) = true := by
    rcases h with h | h
    · rw [h]; rfl
    · rw [h]; simp
  unfold watchlist_query
  rw [if_neg (by omega)]
  show (if k = "" then _ else _) = _
  rw [if_neg hk, if_pos hcond]

/-- Witness for C3's amended statement at the counterexample input. -/
theorem sortkey_invalid_or_empty_witness :
    (1 : Int) ≤ 2 ∧ (2 : Int) ≤ 2 ∧ "Symbol" ≠ "" ∧
    (selectPage [[("Symbol", Value.str "A")]] 2 2 = [] ∨
      List.lookup "Symbol" ((selectPage [[("Symbol", Value.str "A")]] 2 2).headD [])
        = none) ∧
    watchlist_query [[("Symbol", Value.str "A")]] none (some "Symbol") 2 2 =
      WResult.badRequest ("Invalid sort key: " ++ "Symbol" ++ ".") :=
  ⟨by decide, by decide, by decide, Or.inl (by decide),
   sortkey_invalid_or_empty [[("Symbol", Value.str "A")]] none "Symbol" 2 2
     (by decide) (by decide) (by decide) (Or.inl (by decide))⟩

/-- C10 counterexample: a request whose watchlist cannot be loaded and whose
start_rank is the unparseable string "abc" yields the 404 outcome (the
watchlist check at backend.py line 68 runs before the `int(...)` conversion
at line 74), not the claimed 500 outcome. -/
theorem rank_parse_unknown_watchlist_cex :
    pyParseInt "abc" = none ∧
    get_watchlist none none none (some "abc") none =
      WResult.notFound "Watchlist not found or could not be processed." ∧
    get_watchlist none none none (some "abc") none ≠ WResult.internalError := by
  refine ⟨by decide, by decide, by decide⟩

/-- C10 (amended): for every request whose watchlist loads successfully, if
start_rank or end_rank is present and not parseable as an integer, the
handler returns the 500 internal-error outcome (the `int(...)` conversion at
backend.py lines 74-75 raises and is caught by the blanket handler at line
100), not the 400 ValidationError that other bad caller input receives. -/
theorem rank_parse_failure_internal (table : List Row) (ord sb : Option String)
    (sRaw eRaw : Option String)
    (h : (∃ s, sRaw = some s ∧ pyParseInt s = none) ∨
         (∃ s, eRaw = some s ∧ pyParseInt s = none)) :
    get_watchlist (some table) ord sb sRaw eRaw = WResult.internalError ∧
    ∀ msg, get_watchlist (some table) ord sb sRaw eRaw ≠ WResult.badRequest msg := by
  have hmain : get_watchlist (some table) ord sb sRaw eRaw = WResult.internalError := by
    unfold get_watchlist
    rcases h with ⟨s, hsr, hp⟩ | ⟨s, hsr, hp⟩
    · subst hsr
      simp only [hp]
    · subst hsr
      simp only [hp]
      cases hq : (match sRaw with | none => some (1 : Int) | some s => pyParseInt s) <;> rfl
  exact ⟨hmain, fun msg => by rw [hmain]; intro hcontra; cases hcontra⟩

theorem Value.leB_refl (a : Value) : Value.leB a a = true := by
  cases a <;> simp [Value.leB]

theorem Value.leB_trans {a b c : Value} (h1 : Value.leB a b = true)
    (h2 : Value.leB b c = true) : Value.leB a c = true := by
  cases a <;> cases b <;> cases c <;> simp [Value.leB] at h1 h2 ⊢ <;>
    exact le_trans h1 h2

theorem Value.leB_total (a b : Value) :
    Value.leB a b = true ∨ Value.leB b a = true := by
  cases a <;> cases b <;> simp [Value.leB] <;> exact le_total _ _

theorem Value.leB_antisymm {a b : Value} (h1 : Value.leB a b = true)
    (h2 : Value.leB b a = true) : a = b := by
  cases a with
  | str a =>
    cases b with
    | str b =>
      simp only [Value.leB, decide_eq_true_eq] at h1 h2
      exact congrArg Value.str (le_antisymm h1 h2)
    | num b => simp [Value.leB] at h2
  | num a =>
    cases b with
    | str b => simp [Value.leB] at h1
    | num b =>
      simp only [Value.leB, decide_eq_true_eq] at h1 h2
      exact congrArg Value.num (le_antisymm h1 h2)

theorem rowLe_trans (k : String) (a b c : Row) (h1 : rowLe k a b)
    (h2 : rowLe k b c) : rowLe k a c :=
  Value.leB_trans h1 h2

theorem rowLe_total (k : String) (a b : Row) : rowLe k a b || rowLe k b a := by
  rcases Value.leB_total (valAt k a) (valAt k b) with h | h <;> simp [rowLe, h]

/-- Stability of `mergeSort` restated through `filter`: elements on which the
comparison function is constantly true come out in their original relative
order. -/
theorem filter_mergeSort_of_const {α : Type} (le : α → α → Bool)
    (htrans : ∀ a b c : α, le a b → le b c → le a c)
    (htotal : ∀ a b : α, le a b || le b a)
    (p : α → Bool) (hconst : ∀ a b : α, p a → p b → le a b)
    (l : List α) :
    (l.mergeSort le).filter p = l.filter p := by
  have hself : (l.filter p).filter p = l.filter p :=
    List.filter_eq_self.mpr fun a ha => List.of_mem_filter ha
  have hsub : List.Sublist (l.filter p) (l.mergeSort le) := by
    apply List.sublist_mergeSort htrans htotal
    · exact List.pairwise_of_forall_mem_list fun a ha b hb =>
        hconst a b (List.of_mem_filter ha) (List.of_mem_filter hb)
    · exact List.filter_sublist l
  have hsub2 : List.Sublist (l.filter p) ((l.mergeSort le).filter p) := by
    have h := hsub.filter p
    rwa [hself] at h
  have hlen : ((l.mergeSort le).filter p).length = (l.filter p).length :=
    ((List.mergeSort_perm l le).filter p).length_eq
  exact (hsub2.eq_of_length hlen.symm).symm

/-- C5: For every query with a valid rank range and a non-empty sortBy key
that succeeds, the result is exactly the sort of the already-selected page
(slicing at backend.py line 86 happens before the sort at lines 94-97):
the output is the page's sort, and in particular a permutation of the
selected page only, never of the full table. -/
theorem sort_applied_to_selected_page (table : List Row) (ord : Option String)
    (k : String) (s e : Int) (hs : 1 ≤ s) (he : s ≤ e) (hk : k ≠ "")
    (hne : (selectPage table s e).isEmpty = false)
    (hkey : (List.lookup k ((selectPage table s e).headD [])).isSome = true)
    (hsort : sortable k (selectPage table s e) = true) :
    watchlist_query table ord (some k) s e =
      WResult.ok (sortRows ((ord.getD "asc") = "desc") k (selectPage table s e)) ∧
    (sortRows ((ord.getD "asc") = "desc") k (selectPage table s e)).Perm
      (selectPage table s e) := by
  constructor
  · unfold watchlist_query
    rw [if_neg (by omega)]
    show (if k = "" then _ else _) = _
    rw [if_neg hk, if_neg (by rw [hne, hkey]; decide), if_pos hsort]
  · unfold sortRows
    split <;> exact List.mergeSort_perm _ _

/-- Witness for C5: descending sort of the 3-row page selected by ranks 1-3. -/
theorem sort_applied_to_selected_page_witness :
    (1 : Int) ≤ 1 ∧ (1 : Int) ≤ 3 ∧ "1 Year Returns" ≠ "" ∧
    (selectPage [[("Symbol", Value.str "A"), ("1 Year Returns", Value.num 5)],
      [("Symbol", Value.str "B"), ("1 Year Returns", Value.num 3)],
      [("Symbol", Value.str "C"), ("1 Year Returns", Value.num 4)]] 1 3).isEmpty
      = false ∧
    watchlist_query [[("Symbol", Value.str "A"), ("1 Year Returns", Value.num 5)],
        [("Symbol", Value.str "B"), ("1 Year Returns", Value.num 3)],
        [("Symbol", Value.str "C"), ("1 Year Returns", Value.num 4)]]
        (some "desc") (some "1 Year Returns") 1 3 =
      WResult.ok (sortRows (((some "desc").getD "asc") = "desc") "1 Year Returns"
        (selectPage [[("Symbol", Value.str "A"), ("1 Year Returns", Value.num 5)],
          [("Symbol", Value.str "B"), ("1 Year Returns", Value.num 3)],
          [("Symbol", Value.str "C"), ("1 Year Returns", Value.num 4)]] 1 3)) :=
  ⟨by decide, by decide, by decide, by decide,
   (sort_applied_to_selected_page
     [[("Symbol", Value.str "A"), ("1 Year Returns", Value.num 5)],
      [("Symbol", Value.str "B"), ("1 Year Returns", Value.num 3)],
      [("Symbol", Value.str "C"), ("1 Year Returns", Value.num 4)]]
     (some "desc") "1 Year Returns" 1 3 (by decide) (by decide) (by decide)
     (by decide) (by decide) (by decide)).1⟩

/-- C6: For every selected page and sort key on which the sort succeeds, the
sort is stable in both directions (rows whose sortBy value equals any given
value appear in the output in their original relative order), and when the
sortBy values in the page have no duplicates, the descending result is the
exact reverse of the ascending result (backend.py lines 94-97; Python's
`list.sort` is stable and `reverse=True` keeps stability). -/
theorem sort_stable_and_desc_reverse (page : List Row) (k : String)
    (hsort : sortable k page = true) :
    (∀ desc : Bool, ∀ v : Value,
      (sortRows desc k page).filter (fun r => List.lookup k r == some v) =
        page.filter (fun r => List.lookup k r == some v)) ∧
    ((page.map (valAt k)).Nodup →
      sortRows true k page = (sortRows false k page).reverse) := by
  have hconst : ∀ v : Value, ∀ a b : Row,
      (List.lookup k a == some v) = true → (List.lookup k b == some v) = true →
      Value.leB (valAt k a) (valAt k b) = true := by
    intro v a b ha hb
    have ha' : List.lookup k a = some v := by simpa using ha
    have hb' : List.lookup k b = some v := by simpa using hb
    rw [valAt, valAt, ha', hb']
    exact Value.leB_refl v
  constructor
  · intro desc v
    cases desc
    · show (page.mergeSort fun a b => rowLe k a b).filter _ = _
      exact filter_mergeSort_of_const _ (rowLe_trans k) (rowLe_total k) _
        (fun a b ha hb => hconst v a b ha hb) page
    · show (page.mergeSort fun a b => rowLe k b a).filter _ = _
      exact filter_mergeSort_of_const _
        (fun a b c h1 h2 => rowLe_trans k c b a h2 h1)
        (fun a b => rowLe_total k b a) _
        (fun a b ha hb => hconst v b a hb ha) page
  · intro hnd
    show page.mergeSort (fun a b => rowLe k b a) =
      (page.mergeSort fun a b => rowLe k a b).reverse
    have hD : (page.mergeSort fun a b => rowLe k b a).Pairwise
        (fun a b => rowLe k b a = true) :=
      List.sorted_mergeSort (fun a b c h1 h2 => rowLe_trans k c b a h2 h1)
        (fun a b => rowLe_total k b a) page
    have hA : (page.mergeSort fun a b => rowLe k a b).Pairwise
        (fun a b => rowLe k a b = true) :=
      List.sorted_mergeSort (rowLe_trans k) (rowLe_total k) page
    have hnodup : ∀ m : List Row, m.Perm page →
        m.Pairwise (fun a b => valAt k a ≠ valAt k b) := by
      intro m hm
      have : (m.map (valAt k)).Nodup := ((hm.map (valAt k)).symm).nodup hnd
      exact List.pairwise_map.mp this
    have hDr : (page.mergeSort fun a b => rowLe k b a).Pairwise
        (fun a b => rowLe k b a = true ∧ valAt k a ≠ valAt k b) :=
      hD.and (hnodup _ (List.mergeSort_perm page _))
    have hAr : ((page.mergeSort fun a b => rowLe k a b).reverse).Pairwise
        (fun a b => rowLe k b a = true ∧ valAt k a ≠ valAt k b) := by
      rw [List.pairwise_reverse]
      exact hA.and ((hnodup _ (List.mergeSort_perm page _)).imp fun h => h.symm)
    have hperm : (page.mergeSort fun a b => rowLe k b a).Perm
        ((page.mergeSort fun a b => rowLe k a b).reverse) :=
      ((List.mergeSort_perm page _).trans
        (List.mergeSort_perm page _).symm).trans (List.reverse_perm _).symm
    exact @List.eq_of_perm_of_sorted Row
      (fun a b => rowLe k b a = true ∧ valAt k a ≠ valAt k b)
      ⟨fun a b hab hba => absurd (Value.leB_antisymm hba.1 hab.1) hab.2⟩
      _ _ hperm hDr hAr

/-- Witness for C6 on a concrete 4-row page with a duplicated sort value. -/
theorem sort_stable_and_desc_reverse_witness :
    sortable "r" [[("s", Value.str "A"), ("r", Value.num 2)],
      [("s", Value.str "B"), ("r", Value.num 1)],
      [("s", Value.str "C"), ("r", Value.num 2)],
      [("s", Value.str "D"), ("r", Value.num 3)]] = true ∧
    ((∀ desc : Bool, ∀ v : Value,
      (sortRows desc "r" [[("s", Value.str "A"), ("r", Value.num 2)],
        [("s", Value.str "B"), ("r", Value.num 1)],
        [("s", Value.str "C"), ("r", Value.num 2)],
        [("s", Value.str "D"), ("r", Value.num 3)]]).filter
          (fun r => List.lookup "r" r == some v) =
        ([[("s", Value.str "A"), ("r", Value.num 2)],
          [("s", Value.str "B"), ("r", Value.num 1)],
          [("s", Value.str "C"), ("r", Value.num 2)],
          [("s", Value.str "D"), ("r", Value.num 3)]] : List Row).filter
          (fun r => List.lookup "r" r == some v)) ∧
    ((([[("s", Value.str "A"), ("r", Value.num 2)],
       [("s", Value.str "B"), ("r", Value.num 1)],
       [("s", Value.str "C"), ("r", Value.num 2)],
       [("s", Value.str "D"), ("r", Value.num 3)]] : List Row).map
        (valAt "r")).Nodup →
      sortRows true "r" [[("s", Value.str "A"), ("r", Value.num 2)],
        [("s", Value.str "B"), ("r", Value.num 1)],
        [("s", Value.str "C"), ("r", Value.num 2)],
        [("s", Value.str "D"), ("r", Value.num 3)]] =
      (sortRows false "r" [[("s", Value.str "A"), ("r", Value.num 2)],
        [("s", Value.str "B"), ("r", Value.num 1)],
        [("s", Value.str "C"), ("r", Value.num 2)],
        [("s", Value.str "D"), ("r", Value.num 3)]]).reverse)) :=
  ⟨by decide,
   sort_stable_and_desc_reverse [[("s", Value.str "A"), ("r", Value.num 2)],
     [("s", Value.str "B"), ("r", Value.num 1)],
     [("s", Value.str "C"), ("r", Value.num 2)],
     [("s", Value.str "D"), ("r", Value.num 3)]] "r" (by decide)⟩

/-- Witness for C10's amended statement: start_rank "abc" on a loaded table. -/
theorem rank_parse_failure_internal_witness :
    ((∃ s, some "abc" = some s ∧ pyParseInt s = none) ∨
      (∃ s, (none : Option String) = some s ∧ pyParseInt s = none)) ∧
    get_watchlist (some []) none none (some "abc") none = WResult.internalError ∧
    ∀ msg, get_watchlist (some []) none none (some "abc") none ≠
      WResult.badRequest msg :=
  ⟨Or.inl ⟨"abc", rfl, by decide⟩,
   rank_parse_failure_internal [] none none (some "abc") none
     (Or.inl ⟨"abc", rfl, by decide⟩)⟩

/-! ## Theorems about the watchlist loader cache -/

theorem lookup_setKey_self {β : Type} (st : List (String × β)) (k : String)
    (v : β) : List.lookup k (setKey st k v) = some v := by
  induction st with
  | nil => simp [setKey, List.lookup]
  | cons p rest ih =>
    obtain ⟨k2, v2⟩ := p
    by_cases h : k2 = k
    · subst h
      simp [setKey, List.lookup]
    · have hbe : (k == k2) = false := beq_eq_false_iff_ne.mpr fun hc => h hc.symm
      simp only [setKey, if_neg h, List.lookup]
      rw [hbe]
      exact ih

theorem lookup_setKey_ne {β : Type} (st : List (String × β)) (k k2 : String)
    (v : β) (h : k ≠ k2) :
    List.lookup k (setKey st k2 v) = List.lookup k st := by
  have hbe : (k == k2) = false := beq_eq_false_iff_ne.mpr h
  induction st with
  | nil =>
    simp only [setKey, List.lookup]
    rw [hbe]
  | cons p rest ih =>
    obtain ⟨k3, v3⟩ := p
    by_cases h3 : k3 = k2
    · subst h3
      simp only [setKey, if_pos rfl, List.lookup]
      rw [hbe]
    · simp only [setKey, if_neg h3, List.lookup]
      cases hk : k == k3
      · exact ih
      · rfl

/-- A successful load leaves the table stored in the cache under its name. -/
theorem load_success_cached (readCsv : String → Option (List Row))
    (st : WatchCache) (name : String) (tbl : List Row)
    (hsucc : (load_watchlist_data readCsv st name).res = some tbl) :
    List.lookup name (load_watchlist_data readCsv st name).cache = some tbl := by
  unfold load_watchlist_data at hsucc ⊢
  cases hlk : List.lookup name st with
  | some t =>
    simp only [hlk] at hsucc ⊢
    exact hsucc
  | none =>
    simp only [hlk] at hsucc ⊢
    cases hfn : filenames name with
    | none =>
      simp only [hfn] at hsucc
      exact Option.noConfusion hsucc
    | some fn =>
      simp only [hfn] at hsucc ⊢
      cases hrc : readCsv fn with
      | none =>
        simp only [hrc] at hsucc
        exact Option.noConfusion hsucc
      | some data =>
        simp only [hrc] at hsucc ⊢
        cases hsucc
        exact lookup_setKey_self st name _

/-- Any later loader call, for any name and any source outcome, preserves an
entry already stored in the cache (a cached name is answered without
writing; a different name writes only under its own key). -/
theorem lookup_preserved_by_load (rc : String → Option (List Row))
    (c : WatchCache) (nm name : String) (tbl : List Row)
    (h : List.lookup name c = some tbl) :
    List.lookup name (load_watchlist_data rc c nm).cache = some tbl := by
  unfold load_watchlist_data
  cases hlk : List.lookup nm c with
  | some t =>
    simp only [hlk]
    exact h
  | none =>
    simp only [hlk]
    cases hfn : filenames nm with
    | none =>
      simp only [hfn]
      exact h
    | some fn =>
      simp only [hfn]
      cases hrc : rc fn with
      | none =>
        simp only [hrc]
        exact h
      | some data =>
        simp only [hrc]
        have hne : name ≠ nm := fun hc => by
          subst hc
          rw [h] at hlk
          exact Option.noConfusion hlk
        rw [lookup_setKey_ne c name nm data hne]
        exact h

/-- Entry preservation along any sequence of later loader calls, each with
its own source oracle. -/
theorem lookup_preserved_by_runLoads
    (calls : List ((String → Option (List Row)) × String)) (c : WatchCache)
    (name : String) (tbl : List Row) (h : List.lookup name c = some tbl) :
    List.lookup name (runLoads c calls) = some tbl := by
  induction calls generalizing c with
  | nil => exact h
  | cons call rest ih =>
    obtain ⟨rc, nm⟩ := call
    exact ih _ (lookup_preserved_by_load rc c nm name tbl h)

/-- C9: once `load_watchlist_data` has succeeded for a name, the loaded table
is cached under that name and survives any sequence of later loader calls
(with arbitrary names and arbitrary source outcomes, including a changed
file on disk); every subsequent load of that name returns the identical
cached table, leaves the cache unchanged, and does not read the source
(backend.py lines 26-27 and 55-56). -/
theorem load_idempotent_cached_forever
    (readCsv readCsv2 : String → Option (List Row)) (st : WatchCache)
    (name : String) (tbl : List Row)
    (hsucc : (load_watchlist_data readCsv st name).res = some tbl)
    (calls : List ((String → Option (List Row)) × String)) :
    List.lookup name (runLoads (load_watchlist_data readCsv st name).cache calls)
      = some tbl ∧
    load_watchlist_data readCsv2
        (runLoads (load_watchlist_data readCsv st name).cache calls) name =
      ⟨some tbl, runLoads (load_watchlist_data readCsv st name).cache calls,
       false⟩ := by
  have h1 := lookup_preserved_by_runLoads calls _ name tbl
    (load_success_cached readCsv st name tbl hsucc)
  refine ⟨h1, ?_⟩
  generalize hC : runLoads (load_watchlist_data readCsv st name).cache calls = C at h1 ⊢
  unfold load_watchlist_data
  rw [h1]

/-- Witness for C9: load "india" into an empty cache, then load "usa" and
"india" again (the latter against a source that would now answer
differently), and observe the original table still served without reading. -/
theorem load_idempotent_cached_forever_witness :
    (load_watchlist_data (fun _ => some [[("Symbol", Value.str "X")]])
        [] "india").res = some [[("Symbol", Value.str "X")]] ∧
    (List.lookup "india"
        (runLoads (load_watchlist_data (fun _ => some [[("Symbol", Value.str "X")]])
            [] "india").cache
          [(fun _ => none, "usa"), (fun _ => some [], "india")]) =
        some [[("Symbol", Value.str "X")]] ∧
     load_watchlist_data (fun _ => none)
        (runLoads (load_watchlist_data (fun _ => some [[("Symbol", Value.str "X")]])
            [] "india").cache
          [(fun _ => none, "usa"), (fun _ => some [], "india")]) "india" =
      ⟨some [[("Symbol", Value.str "X")]],
       runLoads (load_watchlist_data (fun _ => some [[("Symbol", Value.str "X")]])
           [] "india").cache
         [(fun _ => none, "usa"), (fun _ => some [], "india")],
       false⟩) :=
  ⟨by decide,
   load_idempotent_cached_forever (fun _ => some [[("Symbol", Value.str "X")]])
     (fun _ => none) [] "india" [[("Symbol", Value.str "X")]] (by decide)
     [(fun _ => none, "usa"), (fun _ => some [], "india")]⟩

/-! ## Theorems about the time-series cache (`/api/stock_data`) -/

theorem fetchAndStore_invoked (src : Fetch) (now : Rat) (st : StockCache)
    (key t : String) : (fetchAndStore src now st key t).invoked = true := by
  cases src with
  | fail => rfl
  | ok rows =>
    cases rows with
    | nil => rfl
    | cons a as => rfl

/-- On a cache miss or a stale entry, `get_stock_data` proceeds to the
fetch-and-store tail. -/
theorem get_stock_data_eq_fetch (src : Fetch) (now : Rat) (st : StockCache)
    (ticker p i : String) (ht : pyUpper ticker ≠ "")
    (h : List.lookup (stockKey ticker p i) st = none ∨
      ∃ en, List.lookup (stockKey ticker p i) st = some en ∧
        CACHE_DURATION_SECONDS ≤ now - en.timestamp) :
    get_stock_data src now st ticker p i =
      fetchAndStore src now st (stockKey ticker p i) (pyUpper ticker) := by
  unfold get_stock_data
  rw [if_neg ht]
  rcases h with h | ⟨en, hen, hstale⟩
  · rw [h]
  · rw [hen]
    show (if now - en.timestamp < CACHE_DURATION_SECONDS
        then (⟨StockResult.ok en.data, st, false⟩ : StockOutcome)
        else fetchAndStore src now st (stockKey ticker p i) (pyUpper ticker)) = _
    rw [if_neg (not_lt.mpr hstale)]

/-- What a successful invocation of the source implies about the call's
inputs: the ticker was non-empty after uppercasing, and the key was either
absent from the cache or stale. -/
theorem stock_invoked_spec (src : Fetch) (now : Rat) (st : StockCache)
    (ticker p i : String)
    (h : (get_stock_data src now st ticker p i).invoked = true) :
    pyUpper ticker ≠ "" ∧
    (List.lookup (stockKey ticker p i) st = none ∨
      ∃ en, List.lookup (stockKey ticker p i) st = some en ∧
        CACHE_DURATION_SECONDS ≤ now - en.timestamp) := by
  unfold get_stock_data at h
  by_cases ht : pyUpper ticker = ""
  · rw [if_pos ht] at h
    exact Bool.noConfusion h
  · rw [if_neg ht] at h
    refine ⟨ht, ?_⟩
    cases hlk : List.lookup (stockKey ticker p i) st with
    | none => exact Or.inl rfl
    | some en =>
      rw [hlk] at h
      by_cases hfresh : now - en.timestamp < CACHE_DURATION_SECONDS
      · exfalso
        have h2 : (if now - en.timestamp < CACHE_DURATION_SECONDS
            then (⟨StockResult.ok en.data, st, false⟩ : StockOutcome)
            else fetchAndStore src now st (stockKey ticker p i)
              (pyUpper ticker)).invoked = true := h
        rw [if_pos hfresh] at h2
        exact Bool.noConfusion h2
      · exact Or.inr ⟨en, rfl, le_of_not_lt hfresh⟩

/-- C1 counterexample: a call with the empty symbol and an empty cache. The
claim requires the source to be invoked (the entry is absent), but the code
rejects the empty ticker before the cache lookup (backend.py line 113) and
never calls the source. -/
theorem cache_lookup_empty_symbol_cex :
    List.lookup (stockKey "" "6mo" "1d") ([] : StockCache) = none ∧
    (get_stock_data Fetch.fail 0 [] "" "6mo" "1d").invoked = false ∧
    (get_stock_data Fetch.fail 0 [] "" "6mo" "1d").res =
      StockResult.validationError "Stock ticker cannot be empty." := by
  refine ⟨rfl, rfl, rfl⟩

/-- C1 (amended): for every call whose symbol is non-empty after uppercasing,
a cache entry under key UPPER(symbol)+"_"+period+"_"+interval whose age is
strictly below TTL = 1800 s is returned unchanged without invoking the
source and without touching the cache; when the entry is absent or its age
is at least TTL, the source is invoked (backend.py lines 117-127). -/
theorem cache_fresh_hit_stale_refetch (src : Fetch) (now : Rat)
    (st : StockCache) (ticker p i : String) (ht : pyUpper ticker ≠ "") :
    (∀ en, List.lookup (stockKey ticker p i) st = some en →
       now - en.timestamp < CACHE_DURATION_SECONDS →
       get_stock_data src now st ticker p i =
         ⟨StockResult.ok en.data, st, false⟩) ∧
    (List.lookup (stockKey ticker p i) st = none →
       (get_stock_data src now st ticker p i).invoked = true) ∧
    (∀ en, List.lookup (stockKey ticker p i) st = some en →
       CACHE_DURATION_SECONDS ≤ now - en.timestamp →
       (get_stock_data src now st ticker p i).invoked = true) := by
  refine ⟨?_, ?_, ?_⟩
  · intro en hen hfresh
    unfold get_stock_data
    rw [if_neg ht, hen]
    show (if now - en.timestamp < CACHE_DURATION_SECONDS
        then (⟨StockResult.ok en.data, st, false⟩ : StockOutcome)
        else fetchAndStore src now st (stockKey ticker p i) (pyUpper ticker)) = _
    rw [if_pos hfresh]
  · intro hnone
    rw [get_stock_data_eq_fetch src now st ticker p i ht (Or.inl hnone)]
    exact fetchAndStore_invoked ..
  · intro en hen hstale
    rw [get_stock_data_eq_fetch src now st ticker p i ht
      (Or.inr ⟨en, hen, hstale⟩)]
    exact fetchAndStore_invoked ..

/-- Witness for C1's amended statement: ticker "AAPL" with a fresh cached
entry at age 10 s, drawing all three conjuncts at that concrete state. -/
theorem cache_fresh_hit_stale_refetch_witness :
    pyUpper "AAPL" ≠ "" ∧
    ((∀ en, List.lookup (stockKey "AAPL" "6mo" "1d")
        [("AAPL_6mo_1d", (⟨[⟨"2024-01-02", [1, 2, 0, 1]⟩], 0⟩ : CacheEntry))] =
        some en →
       (10 : Rat) - en.timestamp < CACHE_DURATION_SECONDS →
       get_stock_data Fetch.fail 10
         [("AAPL_6mo_1d", (⟨[⟨"2024-01-02", [1, 2, 0, 1]⟩], 0⟩ : CacheEntry))]
         "AAPL" "6mo" "1d" =
         ⟨StockResult.ok en.data,
          [("AAPL_6mo_1d", (⟨[⟨"2024-01-02", [1, 2, 0, 1]⟩], 0⟩ : CacheEntry))],
          false⟩) ∧
    (List.lookup (stockKey "AAPL" "6mo" "1d")
        [("AAPL_6mo_1d", (⟨[⟨"2024-01-02", [1, 2, 0, 1]⟩], 0⟩ : CacheEntry))] =
        none →
       (get_stock_data Fetch.fail 10
         [("AAPL_6mo_1d", (⟨[⟨"2024-01-02", [1, 2, 0, 1]⟩], 0⟩ : CacheEntry))]
         "AAPL" "6mo" "1d").invoked = true) ∧
    (∀ en, List.lookup (stockKey "AAPL" "6mo" "1d")
        [("AAPL_6mo_1d", (⟨[⟨"2024-01-02", [1, 2, 0, 1]⟩], 0⟩ : CacheEntry))] =
        some en →
       CACHE_DURATION_SECONDS ≤ (10 : Rat) - en.timestamp →
       (get_stock_data Fetch.fail 10
         [("AAPL_6mo_1d", (⟨[⟨"2024-01-02", [1, 2, 0, 1]⟩], 0⟩ : CacheEntry))]
         "AAPL" "6mo" "1d").invoked = true)) :=
  ⟨by decide,
   cache_fresh_hit_stale_refetch Fetch.fail 10
     [("AAPL_6mo_1d", (⟨[⟨"2024-01-02", [1, 2, 0, 1]⟩], 0⟩ : CacheEntry))]
     "AAPL" "6mo" "1d" (by decide)⟩

/-- C2: For every call that reaches the price-history source (the source is
invoked): an empty source frame yields the 404 NotFoundError with the cache
left exactly as it was (backend.py lines 129-131, reached before the store
at line 146); a failing source yields the 500 FetchError outcome, again with
the cache unchanged (lines 153-156); and consequently a second call at any
later time, on that unchanged state, invokes the source again. -/
theorem empty_or_failed_fetch_not_cached (src src2 : Fetch) (now now2 : Rat)
    (st : StockCache) (ticker p i : String)
    (hinv : (get_stock_data src now st ticker p i).invoked = true)
    (hm : now ≤ now2) :
    get_stock_data (Fetch.ok []) now st ticker p i =
      ⟨StockResult.notFound (noDataMsg (pyUpper ticker)), st, true⟩ ∧
    get_stock_data Fetch.fail now st ticker p i =
      ⟨StockResult.internalError, st, true⟩ ∧
    (get_stock_data src2 now2 st ticker p i).invoked = true := by
  obtain ⟨ht, hmiss⟩ := stock_invoked_spec src now st ticker p i hinv
  have hmiss2 : List.lookup (stockKey ticker p i) st = none ∨
      ∃ en, List.lookup (stockKey ticker p i) st = some en ∧
        CACHE_DURATION_SECONDS ≤ now2 - en.timestamp := by
    rcases hmiss with h | ⟨en, hen, hstale⟩
    · exact Or.inl h
    · exact Or.inr ⟨en, hen, le_trans hstale (by linarith)⟩
  refine ⟨?_, ?_, ?_⟩
  · rw [get_stock_data_eq_fetch (Fetch.ok []) now st ticker p i ht hmiss]
    rfl
  · rw [get_stock_data_eq_fetch Fetch.fail now st ticker p i ht hmiss]
    rfl
  · rw [get_stock_data_eq_fetch src2 now2 st ticker p i ht hmiss2]
    exact fetchAndStore_invoked ..

/-- Witness for C2: ticker "AAPL" on the empty cache at times 0 and 1. -/
theorem empty_or_failed_fetch_not_cached_witness :
    (get_stock_data (Fetch.ok []) 0 [] "AAPL" "6mo" "1d").invoked = true ∧
    (0 : Rat) ≤ 1 ∧
    (get_stock_data (Fetch.ok []) 0 [] "AAPL" "6mo" "1d" =
      ⟨StockResult.notFound (noDataMsg (pyUpper "AAPL")), [], true⟩ ∧
    get_stock_data Fetch.fail 0 [] "AAPL" "6mo" "1d" =
      ⟨StockResult.internalError, [], true⟩ ∧
    (get_stock_data (Fetch.ok []) 1 [] "AAPL" "6mo" "1d").invoked = true) :=
  ⟨by decide, by decide,
   empty_or_failed_fetch_not_cached (Fetch.ok []) (Fetch.ok []) 0 1 []
     "AAPL" "6mo" "1d" (by decide) (by decide)⟩

/-- C8 counterexample: the symbol " " is empty after trimming whitespace, yet
the code (which checks `if not ticker` without stripping, backend.py lines
109-113) does not reject it: it proceeds past validation, consults the cache
and invokes the source (here a failing one, giving the 500 outcome). -/
theorem whitespace_ticker_not_rejected_cex :
    pyStrip " " = [] ∧
    (get_stock_data Fetch.fail 0 [] " " "6mo" "1d").invoked = true ∧
    (get_stock_data Fetch.fail 0 [] " " "6mo" "1d").res =
      StockResult.internalError := by
  refine ⟨by decide, rfl, rfl⟩

/-- C8 (amended): for every call whose symbol is exactly the empty string (no
trimming is performed by the code), the result is the ValidationError
"Stock ticker cannot be empty.", produced before any cache lookup or source
call: the cache is returned unchanged and the source is not invoked
(backend.py lines 109-114). -/
theorem empty_ticker_rejected_before_cache (src : Fetch) (now : Rat)
    (st : StockCache) (p i : String) :
    get_stock_data src now st "" p i =
      ⟨StockResult.validationError "Stock ticker cannot be empty.", st, false⟩ := by
  unfold get_stock_data
  rw [if_pos (show pyUpper "" = "" by decide)]

end Bullfolio
